import Mathlib

/-!
Verification development for the ChessPlusPlus sources:
`src/board/King.cpp` (King trajectory computation) and
`src/util/JsonReader.hpp` (JSON configuration reader).

The C++ code is shallowly embedded: pure functions become Lean
functions, mutation becomes explicit state passing, and `throw`
becomes `Except`.  Components of the repository that are referenced
by the sources but whose own code is absent (Position, Direction,
the Piece base class with its `addTrajectory`/`addCapturing`
helpers, Board) are modelled from the specification and are marked
`Modelled from the spec:` in their doc comments.
-/

set_option autoImplicit false

namespace chesspp

/-! ## Board-side data model -/

/-- Modelled from the spec: `Suit` — the two sides, used to tag piece
ownership ("Light/Dark or White/Black").  The class itself is not in the
provided sources. -/
inductive Suit
| light
| dark
deriving DecidableEq, Repr

/-- Modelled from the spec: `Position` — "two bounded integer coordinates
(file, rank)"; the class itself is not in the provided sources.  The
coordinates are plain integers so that an out-of-bounds result of
directional arithmetic is representable: per the spec it is "a
distinguishable off-board value, never a silent wrap". -/
structure Position where
  x : Int
  y : Int
deriving DecidableEq, Repr

/-- Modelled from the spec: a `Position` is on an `n × n` board exactly when
both coordinates lie in `[0, n-1]`; anything else is the off-board value. -/
def Position.valid (n : Nat) (p : Position) : Bool :=
  0 ≤ p.x && p.x < n && 0 ≤ p.y && p.y < n

/-- Modelled from the spec: `Direction` — "one of eight enumerated compass
vectors", immutable and stateless; the enum itself is not in the provided
sources. -/
inductive Direction
| North
| NorthEast
| East
| SouthEast
| South
| SouthWest
| West
| NorthWest
deriving DecidableEq, Repr

/-- Modelled from the spec: each `Direction` maps "to a fixed
(Δfile, Δrank) pair". -/
def Direction.offset : Direction → Int × Int
| .North     => (0, 1)
| .NorthEast => (1, 1)
| .East      => (1, 0)
| .SouthEast => (1, -1)
| .South     => (0, -1)
| .SouthWest => (-1, -1)
| .West      => (-1, 0)
| .NorthWest => (-1, 1)

/-- Modelled from the spec: `Position::move(Direction)` "applies the
direction's fixed offset"; a result with a coordinate outside `[0, N-1]`
is the distinguished off-board value (`Position.valid` is false), with
"no wraparound".  Pure: it "returns a new Position". -/
def Position.move (p : Position) (d : Direction) : Position :=
  ⟨p.x + d.offset.1, p.y + d.offset.2⟩

/-- Modelled from the spec: `Board` — "owns the full grid of occupancy
..., current turn", over an "8×8 (or configurable N×N) grid".  Only the
parts the King trajectory computation can observe are carried: the board
size used for clipping, the occupancy, and the turn. -/
structure Board where
  size : Nat
  occupancy : List (Position × Suit)
  turn : Suit
deriving DecidableEq, Repr

/-- The per-piece state visible in `King.cpp`: the piece's position `pos`
and suit (assigned by the `Piece` base-class constructor), plus the
trajectory and capturing sets that `addTrajectory`/`addCapturing`
accumulate into.  The `Piece` base class itself is not in the provided
sources; its fields are modelled from the spec and from their use in
`King::calcTrajectory`, which is `void` and can record its result only
through these sets. -/
structure Piece where
  pos : Position
  suit : Suit
  trajectory : Finset Position
  capturing : Finset Position
deriving DecidableEq

/-- Modelled from the spec: `Piece::addTrajectory` is not in the provided
sources.  Per the spec, trajectory sets are "clipped to board bounds" and
an off-board coordinate is treated as "stop/exclude" by the filtering,
so the candidate square is inserted into the piece's trajectory set only
when it is on the board. -/
def addTrajectory (b : Board) (p : Piece) (t : Position) : Piece :=
  if t.valid b.size then { p with trajectory := insert t p.trajectory } else p

/-- Modelled from the spec: `Piece::addCapturing` is not in the provided
sources; symmetric to `addTrajectory`, it inserts the candidate square
into the piece's capturing set only when it is on the board. -/
def addCapturing (b : Board) (p : Piece) (t : Position) : Piece :=
  if t.valid b.size then { p with capturing := insert t p.capturing } else p

/-- The list of the eight directions exactly as enumerated in the
`initializer_list` of `King::calcTrajectory` (King.cpp lines 21–28). -/
def kingDirections : List Direction :=
  [.North, .NorthEast, .East, .SouthEast, .South, .SouthWest, .West, .NorthWest]

/-- One iteration of the loop body of `King::calcTrajectory`
(King.cpp lines 30–32): `Position_t t = Position_t(pos).move(d);
addTrajectory(t); addCapturing(t);`. -/
def kingStep (b : Board) (p : Piece) (d : Direction) : Piece :=
  let t := p.pos.move d
  addCapturing b (addTrajectory b p t) t

/-- `King::calcTrajectory` (King.cpp lines 15–34): for each of the eight
directions, move one step from `pos` and record the result in both the
trajectory and the capturing set.  The C++ member function is `void` and
acts on the piece's state (through `addTrajectory`/`addCapturing`), so it
is embedded as a state transformer on the board/piece pair; the board is
never written.  The `std::clog` line is diagnostic output and is not
modelled. -/
def calcTrajectory (b : Board) (p : Piece) : Board × Piece :=
  (b, kingDirections.foldl (kingStep b) p)

/-- `King::King` (King.cpp lines 10–13) merely forwards to the `Piece`
base constructor.  Modelled from the spec: a freshly created piece has
its position and suit set and, since trajectory/capturing sets are
"per-query, transient" and "recomputed on demand", starts with both sets
empty. -/
def mkKing (pos : Position) (s : Suit) : Piece :=
  ⟨pos, s, ∅, ∅⟩

/-- The squares reached by "moving one step in each of the eight compass
Directions" from `pos`, "clipped to the board bounds" of an `n × n`
board: the reference set against which the computed trajectory is
compared. -/
def kingReach (n : Nat) (pos : Position) : Finset Position :=
  ((kingDirections.map pos.move).filter (fun t => t.valid n)).toFinset

/-- The trajectory/capturing squares a fold of `kingStep` over a list of
directions contributes, as a `Finset`. -/
def reachSet (n : Nat) (pos : Position) (L : List Direction) : Finset Position :=
  ((L.map pos.move).filter (fun t => t.valid n)).toFinset

/-- A concrete 8×8 board used by witnesses: empty occupancy, light to move. -/
def sampleBoard : Board := ⟨8, [], Suit.light⟩

/-! ## The JSON configuration reader (`src/util/JsonReader.hpp`) -/

/-- `chesspp::Exception` (declared in Exception.hpp, which only the include
is visible of): an exception carrying a message string, as thrown by
`JsonReader` and `NestedValue`. -/
structure Exception where
  msg : String
deriving DecidableEq, Repr

namespace util

/-- The `json_type` enumeration of the wrapped json-parser library, as
listed in the doc comment of `NestedValue::type` (JsonReader.hpp lines
134–147). -/
inductive json_type
| json_none
| json_object
| json_array
| json_integer
| json_double
| json_string
| json_boolean
| json_null
deriving DecidableEq, Repr

/-- The `json_value` of the wrapped json-parser library: a parsed JSON
document node.  The tag corresponds to the `type` field and the payload to
the active member of the `u` union; `vnone` is the static
`json_value_none` returned by failed lookups.  The floating-point payload
of `json_double` is carried as a rational stand-in; no claim depends on
its arithmetic. -/
inductive json_value
| vnone
| vnull
| vboolean (b : Bool)
| vinteger (n : Int)
| vdouble (dbl : Rat)
| vstring (s : String)
| varray (xs : List json_value)
| vobject (entries : List (String × json_value))

/-- The `type` field of a `json_value`. -/
def json_value.type : json_value → json_type
| .vnone => .json_none
| .vnull => .json_null
| .vboolean _ => .json_boolean
| .vinteger _ => .json_integer
| .vdouble _ => .json_double
| .vstring _ => .json_string
| .varray _ => .json_array
| .vobject _ => .json_object

/-- The json-parser lookup `value[name]` used by
`NestedValue::operator[](std::string const &)` and
`operator[](char const *)` (JsonReader.hpp lines 173–186): on an object,
the value of the first entry whose key matches; otherwise — a non-object,
or a missing key — the static `json_value_none`. -/
def json_value.getKey (v : json_value) (name : String) : json_value :=
  match v with
  | .vobject entries => (entries.lookup name).getD .vnone
  | _ => .vnone

/-- The json-parser lookup `value[index]` used by
`NestedValue::operator[](std::size_t)` (JsonReader.hpp lines 205–208):
on an array, the element at the index; otherwise — a non-array, or an
out-of-range index — the static `json_value_none`. -/
def json_value.getIndex (v : json_value) (i : Nat) : json_value :=
  match v with
  | .varray xs => xs.getD i .vnone
  | _ => .vnone

/-- `NestedValue::length` (JsonReader.hpp lines 191–198): the length of
the `u.array` member when `value.type == json_array`, and `0` otherwise. -/
def json_value.length : json_value → Nat
| .varray xs => xs.length
| _ => 0

/-- `std::map::insert`: adds the pair only when the key is not already
present (the existing entry is kept). -/
def mapInsert (m : List (String × json_value)) (kv : String × json_value) :
    List (String × json_value) :=
  if m.any (fun p => p.1 == kv.1) then m else m ++ [kv]

/-- `NestedValue::object` (JsonReader.hpp lines 216–227): when
`value.type == json_object`, every `u.object` entry is inserted in order
into an initially empty `std::map` (modelled as a key-unique association
list); otherwise the map stays empty. -/
def json_value.object : json_value → List (String × json_value)
| .vobject entries => entries.foldl mapInsert []
| _ => []

/-- The json-parser conversion `operator json_int_t` used by the integer
conversion operators (JsonReader.hpp lines 238–245): the integer payload,
a double truncated toward zero, and `0` for any other type. -/
def json_value.asInt : json_value → Int
| .vinteger n => n
| .vdouble d => if 0 ≤ d then ⌊d⌋ else ⌈d⌉
| _ => 0

/-- The json-parser conversion behind `operator std::string`
(JsonReader.hpp lines 233–236): the string payload, or empty for any
other type. -/
def json_value.asString : json_value → String
| .vstring s => s
| _ => ""

/-- The json-parser conversion behind `operator bool` (JsonReader.hpp
lines 251–254): the boolean payload, or false for any other type. -/
def json_value.asBool : json_value → Bool
| .vboolean b => b
| _ => false

/-- The json-parser conversion behind `operator double` (JsonReader.hpp
lines 260–263): the double payload, an integer widened, or `0` for any
other type. -/
def json_value.asDouble : json_value → Rat
| .vdouble d => d
| .vinteger n => (n : Rat)
| _ => 0

/-- `static_cast<std::intN_t>`/`static_cast<std::uintN_t>` of the
`json_int_t` conversion result (JsonReader.hpp lines 238–245): reduction
modulo `2^w`, re-signed for the signed variants. -/
def json_value.asIntWidth (v : json_value) (w : Nat) (signed : Bool) : Int :=
  let m := v.asInt % (2 ^ w : Int)
  if signed ∧ 2 ^ (w - 1) ≤ m then m - 2 ^ w else m

/-- One step of a navigation path: the C++ `navigate` accepts a mix of
string keys and `std::size_t` indices. -/
inductive PathElem
| key (name : String)
| idx (i : Nat)
deriving DecidableEq, Repr

/-- Lookup of one path element, dispatching to the key or index lookup. -/
def json_value.get (v : json_value) : PathElem → json_value
| .key name => v.getKey name
| .idx i => v.getIndex i

/-- The node of `doc` a path of lookups leads to. -/
def resolve (doc : json_value) : List PathElem → json_value
| [] => doc
| e :: rest => resolve (doc.get e) rest

/-- Whether a value is the static `json_value_none` sentinel of the
json-parser library, the result of a failed lookup. -/
def json_value.isNone : json_value → Bool
| .vnone => true
| _ => false

/-- `JsonReader::NestedValue` (JsonReader.hpp lines 110–274): wraps a
reference `json_value const &value` that is either a node of the parsed
document or the static `json_value_none` returned by a failed lookup.
The reference is embedded as the document root together with the access
path from the root to the node; the referenced value is
`resolve doc path`.  The parser links every node of the document to its
parent and leaves the `parent` pointer of the root null; the static
`json_value_none` also has a null `parent`.  A parsed document contains
no node of type `json_none`, and a lookup chain that fails at some step
stays at `json_value_none` from then on, so the references with a null
`parent` pointer are exactly the empty path and the paths resolving to
the sentinel. -/
structure NestedValue where
  doc : json_value
  path : List PathElem

/-- The `json_value` a `NestedValue` references. -/
def NestedValue.value (v : NestedValue) : json_value := resolve v.doc v.path

/-- `NestedValue::type` (JsonReader.hpp lines 148–151): the `type` field
of the referenced value. -/
def NestedValue.type (v : NestedValue) : json_type := v.value.type

/-- `NestedValue::parent` (JsonReader.hpp lines 158–165): when
`value.parent` is non-null — the reference is a document node other than
the root, i.e. the path is non-empty and does not resolve to the static
`json_value_none` of a failed lookup — a `NestedValue` for the parent
node; otherwise it throws `chesspp::Exception`. -/
def NestedValue.parent (v : NestedValue) : Except Exception NestedValue :=
  if v.path ≠ [] ∧ v.value.isNone = false then .ok ⟨v.doc, v.path.dropLast⟩
  else .error ⟨"No parent json value"⟩

/-- `NestedValue::operator[]` by key (JsonReader.hpp lines 173–186). -/
def NestedValue.atKey (v : NestedValue) (name : String) : NestedValue :=
  ⟨v.doc, v.path ++ [PathElem.key name]⟩

/-- `NestedValue::operator[]` by index (JsonReader.hpp lines 205–208). -/
def NestedValue.atIndex (v : NestedValue) (i : Nat) : NestedValue :=
  ⟨v.doc, v.path ++ [PathElem.idx i]⟩

/-- `operator[]` dispatched on a path element, as the variadic C++
`navigate` does through overload resolution. -/
def NestedValue.get (v : NestedValue) : PathElem → NestedValue
| .key name => v.atKey name
| .idx i => v.atIndex i

/-- `NestedValue::length` (JsonReader.hpp lines 191–198). -/
def NestedValue.length (v : NestedValue) : Nat := v.value.length

/-- `NestedValue::object` (JsonReader.hpp lines 216–227). -/
def NestedValue.object (v : NestedValue) : List (String × json_value) :=
  v.value.object

/-- `JsonReader` (JsonReader.hpp lines 24–322) after successful
construction: the constructor either throws or leaves the `json` pointer
non-null, so the reader is embedded as the parsed document it points to.
(The nullable pointer slot itself, as move operations and the destructor
act on it, is modelled separately by `JsonReaderHandle`.) -/
structure JsonReader where
  json : json_value

/-- `JsonReader::access` (JsonReader.hpp lines 281–284): a `NestedValue`
view of the document root, `*json`.  `operator()` (lines 290–293) simply
forwards to it. -/
def JsonReader.access (r : JsonReader) : NestedValue := ⟨r.json, []⟩

/-- The private helpers of `JsonReader::navigate` (JsonReader.hpp lines
309–321): `navigate(v, first, rest...) = navigate(v[first], rest...)` and
`navigate(v, last) = v[last]`.  The C++ template has no overload for an
empty tail; the `[]` equation is supplied to make the function total and
is never reached from a non-empty path. -/
def navigateFrom (v : NestedValue) : List PathElem → NestedValue
| [] => v
| [e] => v.get e
| e :: rest => navigateFrom (v.get e) rest

/-- The public `JsonReader::navigate(path...)` (JsonReader.hpp lines
300–304): starts the helper recursion from `access()`. -/
def JsonReader.navigate (r : JsonReader) (path : List PathElem) : NestedValue :=
  navigateFrom r.access path

/-- The state of the `std::istream` handed to the `JsonReader`
constructor: either a failed stream (`!s` is true) or a good stream whose
contents up to EOF are the given string. -/
inductive StreamState
| bad
| good (contents : String)

/-- `JsonReader::JsonReader(std::istream &)` (JsonReader.hpp lines
39–54), parameterized by the external json-parser entry point
`json_parse_ex`, modelled as a function from the stream text to either a
parse-error message or the fully parsed document.  A bad stream or a
parse failure throws `chesspp::Exception` (`Except.error`); otherwise the
constructed reader holds exactly the parsed document. -/
def jsonReaderCtor (parse : String → Except String json_value) :
    StreamState → Except Exception JsonReader
| .bad => .error ⟨"stream given to JsonReader in bad state"⟩
| .good s =>
  match parse s with
  | .error e => .error ⟨"Error loading JSON: " ++ e⟩
  | .ok doc => .ok ⟨doc⟩

/-- The nullable `json_value *json` pointer slot of `JsonReader`
(JsonReader.hpp line 29), as the move operations and the destructor act
on it: `none` models `nullptr`. -/
structure JsonReaderHandle where
  json : Option json_value

/-- The move constructor `JsonReader(JsonReader &&)` (JsonReader.hpp
lines 68–72): the new reader takes the source pointer and the source is
left holding null.  Result: (the new reader, the moved-from source). -/
def moveCtor (source : JsonReaderHandle) : JsonReaderHandle × JsonReaderHandle :=
  (⟨source.json⟩, ⟨none⟩)

/-- The move assignment `operator=(JsonReader &&)` (JsonReader.hpp lines
87–91): `std::swap` of the two pointers.  Result: (the assigned-to
reader, the moved-from argument). -/
def moveAssign (a b : JsonReaderHandle) : JsonReaderHandle × JsonReaderHandle :=
  (⟨b.json⟩, ⟨a.json⟩)

/-- The destructor `~JsonReader` (JsonReader.hpp lines 95–98):
`json_value_free(json), json = nullptr`.  The json-parser
`json_value_free` is a no-op on a null pointer, so the freed list is the
held document when there is one and empty otherwise.  Result: (the
documents freed, the pointer slot after destruction). -/
def destructReader (r : JsonReaderHandle) : List json_value × JsonReaderHandle :=
  (r.json.toList, ⟨none⟩)

/-- The public read-only operations of `JsonReader`/`NestedValue`
(JsonReader.hpp lines 110–304) a caller can chain on a constructed
reader. -/
inductive ReadOp
| typeQuery
| parentQuery
| keyAccess (name : String)
| indexAccess (i : Nat)
| lengthQuery
| objectQuery
| stringConv
| intConv
| widthConv (w : Nat) (signed : Bool)
| boolConv
| doubleConv
| navigateQuery (path : List PathElem)

/-- The output of one read operation. -/
inductive ReadOut
| tval (t : json_type)
| nested (v : NestedValue)
| nestedOrThrow (r : Except Exception NestedValue)
| nat (n : Nat)
| entries (m : List (String × json_value))
| str (s : String)
| int (n : Int)
| boolean (b : Bool)
| rat (q : Rat)

/-- Running one read operation from a `NestedValue`: the member functions
are all `const` and contain no assignment to the document, so each
returns its output and the `NestedValue` the caller holds next (for the
accessors, the value they return; for scalar queries, the unchanged
receiver; for a throwing `parent` call, the unchanged receiver). -/
def runRead (v : NestedValue) : ReadOp → ReadOut × NestedValue
| .typeQuery => (.tval v.type, v)
| .parentQuery =>
  (.nestedOrThrow v.parent, match v.parent with | .ok w => w | .error _ => v)
| .keyAccess name => (.nested (v.atKey name), v.atKey name)
| .indexAccess i => (.nested (v.atIndex i), v.atIndex i)
| .lengthQuery => (.nat v.length, v)
| .objectQuery => (.entries v.object, v)
| .stringConv => (.str v.value.asString, v)
| .intConv => (.int v.value.asInt, v)
| .widthConv w signed => (.int (v.value.asIntWidth w signed), v)
| .boolConv => (.boolean v.value.asBool, v)
| .doubleConv => (.rat v.value.asDouble, v)
| .navigateQuery path => (.nested ⟨v.doc, path⟩, ⟨v.doc, path⟩)

/-- A concrete parsed document used by witnesses, modelling
`{"board": [8, 7], "title": "chess"}`. -/
def sampleDoc : json_value :=
  .vobject [("board", .varray [.vinteger 8, .vinteger 7]), ("title", .vstring "chess")]

/-- A concrete non-root `NestedValue` into `sampleDoc`, used by
witnesses. -/
def sampleNested : NestedValue := ⟨sampleDoc, [PathElem.key "board"]⟩

end util

/-! ## Theorems: the King trajectory claims -/

theorem addTrajectory_pos (b : Board) (p : Piece) (t : Position) :
    (addTrajectory b p t).pos = p.pos := by
  unfold addTrajectory; split <;> rfl

theorem addTrajectory_suit (b : Board) (p : Piece) (t : Position) :
    (addTrajectory b p t).suit = p.suit := by
  unfold addTrajectory; split <;> rfl

theorem addTrajectory_capturing (b : Board) (p : Piece) (t : Position) :
    (addTrajectory b p t).capturing = p.capturing := by
  unfold addTrajectory; split <;> rfl

theorem addCapturing_pos (b : Board) (p : Piece) (t : Position) :
    (addCapturing b p t).pos = p.pos := by
  unfold addCapturing; split <;> rfl

theorem addCapturing_suit (b : Board) (p : Piece) (t : Position) :
    (addCapturing b p t).suit = p.suit := by
  unfold addCapturing; split <;> rfl

theorem addCapturing_trajectory (b : Board) (p : Piece) (t : Position) :
    (addCapturing b p t).trajectory = p.trajectory := by
  unfold addCapturing; split <;> rfl

theorem kingStep_pos (b : Board) (p : Piece) (d : Direction) :
    (kingStep b p d).pos = p.pos := by
  unfold kingStep
  rw [addCapturing_pos, addTrajectory_pos]

theorem kingStep_suit (b : Board) (p : Piece) (d : Direction) :
    (kingStep b p d).suit = p.suit := by
  unfold kingStep
  rw [addCapturing_suit, addTrajectory_suit]

theorem kingStep_trajectory (b : Board) (p : Piece) (d : Direction) :
    (kingStep b p d).trajectory =
      if (p.pos.move d).valid b.size
      then insert (p.pos.move d) p.trajectory else p.trajectory := by
  unfold kingStep
  rw [addCapturing_trajectory]
  unfold addTrajectory
  split <;> rfl

theorem kingStep_capturing (b : Board) (p : Piece) (d : Direction) :
    (kingStep b p d).capturing =
      if (p.pos.move d).valid b.size
      then insert (p.pos.move d) p.capturing else p.capturing := by
  unfold kingStep addCapturing
  simp [apply_ite Piece.capturing, addTrajectory_capturing]

theorem reachSet_nil (n : Nat) (pos : Position) : reachSet n pos [] = ∅ := rfl

theorem reachSet_cons (n : Nat) (pos : Position) (d : Direction) (L : List Direction) :
    reachSet n pos (d :: L) =
      if (pos.move d).valid n
      then insert (pos.move d) (reachSet n pos L) else reachSet n pos L := by
  unfold reachSet
  simp only [List.map_cons, List.filter_cons]
  split <;> simp

theorem foldl_kingStep_pos (b : Board) (L : List Direction) (p : Piece) :
    (L.foldl (kingStep b) p).pos = p.pos := by
  induction L generalizing p with
  | nil => rfl
  | cons d L ih => simp only [List.foldl_cons]; rw [ih, kingStep_pos]

theorem foldl_kingStep_suit (b : Board) (L : List Direction) (p : Piece) :
    (L.foldl (kingStep b) p).suit = p.suit := by
  induction L generalizing p with
  | nil => rfl
  | cons d L ih => simp only [List.foldl_cons]; rw [ih, kingStep_suit]

theorem foldl_kingStep_trajectory (b : Board) (L : List Direction) (p : Piece) :
    (L.foldl (kingStep b) p).trajectory = p.trajectory ∪ reachSet b.size p.pos L := by
  induction L generalizing p with
  | nil => simp [reachSet_nil]
  | cons d L ih =>
    simp only [List.foldl_cons]
    rw [ih, kingStep_trajectory, kingStep_pos, reachSet_cons]
    split
    · rw [Finset.insert_union, Finset.union_insert]
    · rfl

theorem foldl_kingStep_capturing (b : Board) (L : List Direction) (p : Piece) :
    (L.foldl (kingStep b) p).capturing = p.capturing ∪ reachSet b.size p.pos L := by
  induction L generalizing p with
  | nil => simp [reachSet_nil]
  | cons d L ih =>
    simp only [List.foldl_cons]
    rw [ih, kingStep_capturing, kingStep_pos, reachSet_cons]
    split
    · rw [Finset.insert_union, Finset.union_insert]
    · rfl

theorem calcTrajectory_trajectory (b : Board) (p : Piece) :
    (calcTrajectory b p).2.trajectory = p.trajectory ∪ kingReach b.size p.pos :=
  foldl_kingStep_trajectory b kingDirections p

theorem calcTrajectory_capturing (b : Board) (p : Piece) :
    (calcTrajectory b p).2.capturing = p.capturing ∪ kingReach b.size p.pos :=
  foldl_kingStep_capturing b kingDirections p

theorem calcTrajectory_pos (b : Board) (p : Piece) :
    (calcTrajectory b p).2.pos = p.pos :=
  foldl_kingStep_pos b kingDirections p

theorem calcTrajectory_suit (b : Board) (p : Piece) :
    (calcTrajectory b p).2.suit = p.suit :=
  foldl_kingStep_suit b kingDirections p

theorem mem_kingReach_valid {n : Nat} {pos t : Position} (h : t ∈ kingReach n pos) :
    t.valid n = true := by
  unfold kingReach at h
  rw [List.mem_toFinset, List.mem_filter] at h
  exact h.2

theorem Piece.eq_of_fields {p q : Piece} (h1 : p.pos = q.pos) (h2 : p.suit = q.suit)
    (h3 : p.trajectory = q.trajectory) (h4 : p.capturing = q.capturing) : p = q := by
  cases p; cases q; simp_all

/-- C1: after `King::calcTrajectory` runs for a King at any position (its
per-query trajectory/capturing sets starting empty, as for a freshly
constructed piece), the King's trajectory set and its capturing set both
equal the set of positions reached by moving one step in each of the eight
compass Directions from its current position, clipped to the board bounds,
and the two sets are equal to each other. -/
theorem claim_C1 (b : Board) (p : Piece)
    (ht : p.trajectory = ∅) (hc : p.capturing = ∅) :
    (calcTrajectory b p).2.trajectory = kingReach b.size p.pos ∧
    (calcTrajectory b p).2.capturing = kingReach b.size p.pos ∧
    (calcTrajectory b p).2.trajectory = (calcTrajectory b p).2.capturing := by
  rw [calcTrajectory_trajectory, calcTrajectory_capturing, ht, hc, Finset.empty_union]
  exact ⟨rfl, rfl, rfl⟩

/-- Witness for C1: a light King at (4,4) on an 8×8 board. -/
theorem claim_C1_witness :
    (mkKing ⟨4, 4⟩ Suit.light).trajectory = ∅ ∧
    (mkKing ⟨4, 4⟩ Suit.light).capturing = ∅ ∧
    ((calcTrajectory sampleBoard (mkKing ⟨4, 4⟩ Suit.light)).2.trajectory
        = kingReach sampleBoard.size (mkKing ⟨4, 4⟩ Suit.light).pos ∧
     (calcTrajectory sampleBoard (mkKing ⟨4, 4⟩ Suit.light)).2.capturing
        = kingReach sampleBoard.size (mkKing ⟨4, 4⟩ Suit.light).pos ∧
     (calcTrajectory sampleBoard (mkKing ⟨4, 4⟩ Suit.light)).2.trajectory
        = (calcTrajectory sampleBoard (mkKing ⟨4, 4⟩ Suit.light)).2.capturing) :=
  ⟨rfl, rfl, claim_C1 sampleBoard (mkKing ⟨4, 4⟩ Suit.light) rfl rfl⟩

/-- C2: the trajectory computed by the raw-trajectory query never contains
an off-board Position — starting from empty per-query sets, every member
of the resulting trajectory and capturing sets is within the board bounds,
so every off-board candidate produced by the directional arithmetic was
excluded. -/
theorem claim_C2 (b : Board) (p : Piece)
    (ht : p.trajectory = ∅) (hc : p.capturing = ∅) :
    (∀ t ∈ (calcTrajectory b p).2.trajectory, t.valid b.size = true) ∧
    (∀ t ∈ (calcTrajectory b p).2.capturing, t.valid b.size = true) := by
  rw [calcTrajectory_trajectory, calcTrajectory_capturing, ht, hc, Finset.empty_union]
  exact ⟨fun t h => mem_kingReach_valid h, fun t h => mem_kingReach_valid h⟩

/-- Witness for C2: a light King on the corner square (0,0) of an 8×8
board, where five of the eight directional moves leave the board. -/
theorem claim_C2_witness :
    (mkKing ⟨0, 0⟩ Suit.light).trajectory = ∅ ∧
    (mkKing ⟨0, 0⟩ Suit.light).capturing = ∅ ∧
    ((∀ t ∈ (calcTrajectory sampleBoard (mkKing ⟨0, 0⟩ Suit.light)).2.trajectory,
        t.valid sampleBoard.size = true) ∧
     (∀ t ∈ (calcTrajectory sampleBoard (mkKing ⟨0, 0⟩ Suit.light)).2.capturing,
        t.valid sampleBoard.size = true)) :=
  ⟨rfl, rfl, claim_C2 sampleBoard (mkKing ⟨0, 0⟩ Suit.light) rfl rfl⟩

/-- C3 counterexample: the trajectory computation is not mutation-free on
the piece.  For a freshly constructed light King at (4,4) on an 8×8 board,
`King::calcTrajectory` changes the piece: its trajectory set goes from
empty to the eight surrounding squares (the `void` member function records
its result through `addTrajectory`/`addCapturing`). -/
theorem claim_C3_counterexample :
    (calcTrajectory sampleBoard (mkKing ⟨4, 4⟩ Suit.light)).2 ≠ mkKing ⟨4, 4⟩ Suit.light := by
  intro h
  have h1 := congrArg Piece.trajectory h
  rw [calcTrajectory_trajectory] at h1
  have h2 : (⟨4, 5⟩ : Position) ∈ kingReach sampleBoard.size (mkKing ⟨4, 4⟩ Suit.light).pos := by
    decide
  have h3 : (⟨4, 5⟩ : Position) ∈ (mkKing ⟨4, 4⟩ Suit.light).trajectory := by
    rw [← h1]
    exact Finset.mem_union_right _ h2
  exact absurd h3 (by decide)

/-- C3 amended: the trajectory computation never mutates the board, and it
leaves the piece's position and suit unchanged; the only fields it writes
are the piece's stored trajectory and capturing sets, which hold the
query's result. -/
theorem claim_C3 (b : Board) (p : Piece) :
    (calcTrajectory b p).1 = b ∧
    (calcTrajectory b p).2.pos = p.pos ∧
    (calcTrajectory b p).2.suit = p.suit :=
  ⟨rfl, calcTrajectory_pos b p, calcTrajectory_suit b p⟩

/-- C4: the trajectory query is idempotent — running `King::calcTrajectory`
a second time, with no intervening mutation, yields exactly the same board
and piece (the same trajectory and capturing sets, with no duplicated or
accumulated entries). -/
theorem claim_C4 (b : Board) (p : Piece) :
    calcTrajectory (calcTrajectory b p).1 (calcTrajectory b p).2 = calcTrajectory b p := by
  have hfst : (calcTrajectory b p).1 = b := rfl
  rw [hfst]
  refine Prod.ext rfl ?_
  apply Piece.eq_of_fields
  · rw [calcTrajectory_pos, calcTrajectory_pos]
  · rw [calcTrajectory_suit, calcTrajectory_suit]
  · rw [calcTrajectory_trajectory, calcTrajectory_trajectory, calcTrajectory_pos,
      Finset.union_assoc, Finset.union_self]
  · rw [calcTrajectory_capturing, calcTrajectory_capturing, calcTrajectory_pos,
      Finset.union_assoc, Finset.union_self]

/-! ## Theorems: the JsonReader claims -/

namespace util

theorem runRead_doc (v : NestedValue) (op : ReadOp) : (runRead v op).2.doc = v.doc := by
  cases op with
  | parentQuery =>
    unfold runRead
    rcases h : v.parent with e | w
    · rfl
    · unfold NestedValue.parent at h
      split at h
      · cases h; rfl
      · cases h
  | _ => rfl

theorem navigateFrom_eq_foldl (path : List PathElem) :
    ∀ v : NestedValue, navigateFrom v path = path.foldl NestedValue.get v := by
  induction path with
  | nil => intro v; rfl
  | cons e rest ih =>
    intro v
    cases rest with
    | nil => rfl
    | cons f r =>
      have h1 : navigateFrom v (e :: f :: r) = navigateFrom (v.get e) (f :: r) := rfl
      rw [h1, ih (v.get e)]
      rfl

theorem json_value.length_of_not_array {v : json_value}
    (h : v.type ≠ json_type.json_array) : v.length = 0 := by
  cases v <;> first | rfl | exact absurd rfl h

theorem json_value.object_of_not_object {v : json_value}
    (h : v.type ≠ json_type.json_object) : v.object = [] := by
  cases v <;> first | rfl | exact absurd rfl h

/-- C5: construction of the configuration reader is atomic.  For every
behavior of the external parser and every stream state, the constructor
either throws — exactly when the stream is bad or the text fails to
parse, the thrown exception carrying only a message, so no reader object
and no partially parsed document escape — or succeeds with a reader
holding exactly the fully parsed document. -/
theorem claim_C5 (parse : String → Except String json_value) (st : StreamState) :
    ((∃ e, jsonReaderCtor parse st = Except.error e) ∧
      (st = StreamState.bad ∨
        ∃ s e, st = StreamState.good s ∧ parse s = Except.error e)) ∨
    (∃ s doc, st = StreamState.good s ∧ parse s = Except.ok doc ∧
      jsonReaderCtor parse st = Except.ok ⟨doc⟩) := by
  cases st with
  | bad => exact Or.inl ⟨⟨_, rfl⟩, Or.inl rfl⟩
  | good s =>
    rcases hp : parse s with e | doc
    · exact Or.inl ⟨⟨⟨"Error loading JSON: " ++ e⟩, by simp [jsonReaderCtor, hp]⟩,
        Or.inr ⟨s, e, rfl, hp⟩⟩
    · exact Or.inr ⟨s, doc, rfl, hp, by simp [jsonReaderCtor, hp]⟩

/-- C6: the parsed document is immutable under reads.  Chaining any
sequence of the public read operations (type, `operator[]` by key or
index, length, object, parent, the scalar conversions, navigate) leaves
the underlying document exactly as it was. -/
theorem claim_C6 (ops : List ReadOp) (v : NestedValue) :
    (ops.foldl (fun w op => (runRead w op).2) v).doc = v.doc := by
  induction ops generalizing v with
  | nil => rfl
  | cons op rest ih =>
    rw [List.foldl_cons, ih ((runRead v op).2), runRead_doc]

/-- C7: the read-only collection queries degrade to empty results instead
of failing: `length()` of a value that is not an array is `0`, and
`object()` of a value that is not an object is the empty map (both are
total functions of the value — neither throws). -/
theorem claim_C7 (v : NestedValue) :
    (v.type ≠ json_type.json_array → v.length = 0) ∧
    (v.type ≠ json_type.json_object → v.object = []) :=
  ⟨fun h => json_value.length_of_not_array h,
   fun h => json_value.object_of_not_object h⟩

/-- Witness for C7: a string-typed `NestedValue` (the "title" entry of
the sample document) has length 0 and an empty object view. -/
theorem claim_C7_witness :
    (NestedValue.type ⟨sampleDoc, [PathElem.key "title"]⟩ ≠ json_type.json_array ∧
      NestedValue.length ⟨sampleDoc, [PathElem.key "title"]⟩ = 0) ∧
    (NestedValue.type ⟨sampleDoc, [PathElem.key "title"]⟩ ≠ json_type.json_object ∧
      NestedValue.object ⟨sampleDoc, [PathElem.key "title"]⟩ = []) :=
  ⟨⟨by decide, (claim_C7 ⟨sampleDoc, [PathElem.key "title"]⟩).1 (by decide)⟩,
   ⟨by decide, (claim_C7 ⟨sampleDoc, [PathElem.key "title"]⟩).2 (by decide)⟩⟩

/-- C8: for every non-empty path, `navigate(p1, ..., pn)` returns the
same `NestedValue` as applying `operator[]` successively starting from
`access()`. -/
theorem claim_C8 (r : JsonReader) (path : List PathElem) (hne : path ≠ []) :
    r.navigate path = path.foldl NestedValue.get r.access :=
  navigateFrom_eq_foldl path r.access

/-- Witness for C8: navigating `["board", 1]` in the sample document. -/
theorem claim_C8_witness :
    ([PathElem.key "board", PathElem.idx 1] ≠ ([] : List PathElem)) ∧
    JsonReader.navigate ⟨sampleDoc⟩ [PathElem.key "board", PathElem.idx 1]
      = [PathElem.key "board", PathElem.idx 1].foldl NestedValue.get
          (JsonReader.access ⟨sampleDoc⟩) :=
  ⟨by decide, claim_C8 ⟨sampleDoc⟩ [PathElem.key "board", PathElem.idx 1] (by decide)⟩

/-- C9: single ownership of the parsed document.  The move constructor
transfers the pointer and leaves the source holding null; move assignment
swaps the two pointers; the destructor frees exactly the held document
and nulls the pointer; and destroying a moved-from reader frees nothing.
(Copy construction and copy assignment are deleted in the source, lines
32–33, and correspondingly have no model.) -/
theorem claim_C9 (r a b : JsonReaderHandle) :
    (moveCtor r).1.json = r.json ∧
    (moveCtor r).2.json = none ∧
    moveAssign a b = (⟨b.json⟩, ⟨a.json⟩) ∧
    (destructReader r).1 = r.json.toList ∧
    (destructReader r).2.json = none ∧
    (destructReader (moveCtor r).2).1 = [] :=
  ⟨rfl, rfl, rfl, rfl, rfl, rfl⟩

/-- C10 counterexample: `parent()` does not throw only at the root.  The
lookup `access()["missing"]` on the sample document fails, so the
returned `NestedValue` wraps the static `json_value_none`, whose `parent`
pointer is null: the value is not the document root (its path is
non-empty), yet `parent()` throws instead of returning a parent value. -/
theorem claim_C10_counterexample :
    NestedValue.path ⟨sampleDoc, [PathElem.key "missing"]⟩ ≠ [] ∧
    (∃ e, NestedValue.parent ⟨sampleDoc, [PathElem.key "missing"]⟩ = Except.error e) :=
  ⟨by decide, ⟨⟨"No parent json value"⟩, rfl⟩⟩

/-- C10 (amended): `NestedValue::parent` throws a `chesspp::Exception`
exactly when the `value.parent` pointer is null — the value is the
document root, or it is the static `json_value_none` produced by a
failed lookup; otherwise it returns a `NestedValue` wrapping the parent
value, with the document unmodified. -/
theorem claim_C10 (v : NestedValue) :
    ((∃ e, v.parent = Except.error e) ↔ (v.path = [] ∨ v.value.isNone = true)) ∧
    (v.path ≠ [] → v.value.isNone = false →
      v.parent = Except.ok ⟨v.doc, v.path.dropLast⟩) := by
  unfold NestedValue.parent
  by_cases hp : v.path = []
  · simp [hp]
  · cases hn : v.value.isNone with
    | true => simp [hp, hn]
    | false => simp [hp, hn]

/-- Witness for C10: the "board" entry of the sample document is a real
non-root node, and its parent is the root view of the same document. -/
theorem claim_C10_witness :
    sampleNested.path ≠ [] ∧
    sampleNested.value.isNone = false ∧
    sampleNested.parent = Except.ok ⟨sampleNested.doc, sampleNested.path.dropLast⟩ :=
  ⟨by decide, by decide, (claim_C10 sampleNested).2 (by decide) (by decide)⟩

end util

end chesspp
